import Mathlib

/-!
Shallow embedding of `src/USBtoSerial.c` (matlo/USBtoSerial), a LUFA-based
USB-CDC-to-UART bridge for AVR8 (ATmega32U4-class parts, where `int` is 16 bits,
`TCNT1` is the 16-bit Timer1 counter register and `MAGIC_KEY_POS = 0x0800`
differs from `RAMEND-1`).

Machine integers are modelled as `Nat` with explicit `% 2^w` where C truncation
matters.  Hardware registers and the external LUFA USB stack are modelled as
explicit state and oracle parameters.  The LUFA `RingBuffer` module is not part
of this repository's sources, so it is modelled from the specification text
(section 4.1 of the design document).
-/

namespace USBtoSerial

/-! ## Constants from `src/USBtoSerial.c` -/

/-- `#define MAGIC_KEY 0x7777` -/
def MAGIC_KEY : Nat := 0x7777

/-- `#define MAGIC_KEY_POS 0x0800` -/
def MAGIC_KEY_POS : Nat := 0x0800

/-- `#define NEW_LUFA_SIGNATURE 0xDCFB` -/
def NEW_LUFA_SIGNATURE : Nat := 0xDCFB

/-- `sizeof(USARTtoUSB_Buffer_Data)`: the backing array is `uint8_t [1024]`. -/
def USARTtoUSB_Buffer_Data_size : Nat := 1024

/-! ## Bounded byte buffer

Modelled from the spec: the LUFA `RingBuffer_t` module is an external
dependency whose sources are not in `src/`; section 4.1 of the specification
describes it as a fixed-capacity circular queue with a read cursor, a write
cursor and an occupied-slot count, where an insert into a full buffer is
rejected without changing anything. -/
structure RingBuffer_t where
  data : List Nat
  rd : Nat
  wr : Nat
  count : Nat
  deriving Repr, DecidableEq

/-- Capacity of the buffer: the size of its backing storage. -/
def RingBuffer_t.capacity (rb : RingBuffer_t) : Nat := rb.data.length

/-- Modelled from the spec: `init(capacity)` binds backing storage, zero count
and cursors. -/
def RingBuffer_InitBuffer (cap : Nat) : RingBuffer_t :=
  ⟨List.replicate cap 0, 0, 0, 0⟩

/-- Modelled from the spec: `count()` returns the current occupied slot count. -/
def RingBuffer_GetCount (rb : RingBuffer_t) : Nat := rb.count

/-- Modelled from the spec: `is_full()` is `count() == capacity`. -/
def RingBuffer_IsFull (rb : RingBuffer_t) : Bool := rb.count == rb.capacity

/-- Modelled from the spec: `insert(byte)` fails silently when full, otherwise
stores at the write cursor, advances the write cursor modulo the capacity and
increments the count. -/
def RingBuffer_Insert (rb : RingBuffer_t) (b : Nat) : RingBuffer_t :=
  if rb.count == rb.capacity then rb
  else ⟨rb.data.set rb.wr b, rb.rd, (rb.wr + 1) % rb.capacity, rb.count + 1⟩

/-- Modelled from the spec: `peek()` returns the byte at the read cursor
without removing it. -/
def RingBuffer_Peek (rb : RingBuffer_t) : Nat := rb.data.getD rb.rd 0

/-- Modelled from the spec: `remove()` advances the read cursor modulo the
capacity and decrements the count. -/
def RingBuffer_Remove (rb : RingBuffer_t) : RingBuffer_t :=
  ⟨rb.data, (rb.rd + 1) % rb.capacity, rb.wr, rb.count - 1⟩

/-- Structural well-formedness of a buffer state: the read cursor is in range
and the count does not exceed the capacity. -/
def RingBuffer_t.wf (rb : RingBuffer_t) : Prop :=
  rb.rd < rb.capacity ∧ rb.count ≤ rb.capacity

/-- The buffered bytes in arrival order (oldest first): the `count` bytes
starting at the read cursor, wrapping modulo the capacity. -/
def bufContents (rb : RingBuffer_t) : List Nat :=
  (List.range rb.count).map (fun i => rb.data.getD ((rb.rd + i) % rb.capacity) 0)

/-! ## Mutable state of the relay engine

`USART_Timeout` is a `volatile uint8_t` (values `< 256`); `TCNT1` is the
16-bit Timer1 counter (values `< 2^16`). -/
structure MainState where
  buf : RingBuffer_t
  tcnt : Nat
  timeout : Nat
  deriving Repr, DecidableEq

/-! ## Ingress collector: `ISR(USART1_RX_vect, ISR_BLOCK)`

```
uint8_t ReceivedByte = UDR1;
if (USB_DeviceState != DEVICE_STATE_Configured || RingBuffer_IsFull(&USARTtoUSB_Buffer))
  return;
if (RingBuffer_GetCount(&USARTtoUSB_Buffer))
  USART_Timeout = TCNT1 << 2;
TCNT1 = 0;
RingBuffer_Insert(&USARTtoUSB_Buffer, ReceivedByte);
```

`TCNT1` (uint16_t) promotes to 16-bit `unsigned int` on AVR8, so `TCNT1 << 2`
is computed modulo `2^16`; storing into the `uint8_t` variable truncates
modulo `2^8`. -/
structure IsrResult where
  state : MainState
  readUDR1 : Bool
  deriving Repr, DecidableEq

/-- The ISR body, as a function of the USB configured flag, the value of the
`UDR1` receive register, and the pre-state. -/
def USART1_RX_vect (usbConfigured : Bool) (udr1 : Nat) (s : MainState) : IsrResult :=
  let receivedByte := udr1 % 256
  if !usbConfigured || RingBuffer_IsFull s.buf then
    ⟨s, true⟩
  else
    let timeout' :=
      if RingBuffer_GetCount s.buf ≠ 0 then ((s.tcnt <<< 2) % 2 ^ 16) % 2 ^ 8
      else s.timeout
    ⟨⟨RingBuffer_Insert s.buf receivedByte, 0, timeout'⟩, true⟩

/-! ## Egress relay (inner `while (1)` loop of `main`)

```
int16_t ReceivedByte = CDC_Device_ReceiveByte(&VirtualSerial_CDC_Interface);
if (ReceivedByte < 0) break;
while (!Serial_IsSendReady()) ;
Serial_SendByte(ReceivedByte);
```

The USB layer is an oracle: the finite list of successive
`CDC_Device_ReceiveByte` results for this iteration.  `Serial_SendByte` takes
a `char`, so the `int16_t` value is truncated modulo 256 on the write. -/
def egressRelay : List Int → List Nat
  | [] => []
  | r :: rest => if r < 0 then [] else (r.toNat % 256) :: egressRelay rest

/-! ## Flush loop of `main`

```
while (BufferCount--)
{
  if (CDC_Device_SendByte(&VirtualSerial_CDC_Interface,
                          RingBuffer_Peek(&USARTtoUSB_Buffer)) != ENDPOINT_READYWAIT_NoError)
    break;
  RingBuffer_Remove(&USARTtoUSB_Buffer);
}
```

`send i b` is the oracle status returned by `CDC_Device_SendByte` for the
`i`-th send attempt of this flush, attempting byte `b`; status `0` is
`ENDPOINT_READYWAIT_NoError`. -/
def flushLoop (send : Nat → Nat → Nat) (i : Nat) (rb : RingBuffer_t) : Nat → RingBuffer_t
  | 0 => rb
  | n + 1 =>
    if send i (RingBuffer_Peek rb) ≠ 0 then rb
    else flushLoop send (i + 1) (RingBuffer_Remove rb) n

/-! ## One iteration of the `for (;;)` main loop -/

/-- Observable events of one main-loop iteration: the bytes written to the
UART transmit register by the egress relay, and whether the USB IN endpoint
was selected for a flush attempt. -/
structure IterEvents where
  uartWrites : List Nat
  inEndpointSelected : Bool
  deriving Repr, DecidableEq

/-- One iteration of the main loop:

```
while (1) { ... egress relay ... }
uint16_t BufferCount = RingBuffer_GetCount(&USARTtoUSB_Buffer);
if ((BufferCount && TCNT1 >= USART_Timeout)
    || BufferCount > sizeof(USARTtoUSB_Buffer_Data) / 2)
{
  Endpoint_SelectEndpoint(...DataINEndpoint.Address);
  if (Endpoint_IsINReady())
  {
    while (BufferCount--) { ... flush loop ... }
  }
}
```

`rx` is the oracle stream of `CDC_Device_ReceiveByte` results, `inReady` the
result of `Endpoint_IsINReady`, `send` the per-attempt `CDC_Device_SendByte`
status oracle. -/
def mainIteration (rx : List Int) (inReady : Bool) (send : Nat → Nat → Nat)
    (s : MainState) : MainState × IterEvents :=
  let writes := egressRelay rx
  let bufferCount := RingBuffer_GetCount s.buf
  if (bufferCount != 0 && decide (s.tcnt ≥ s.timeout))
      || decide (bufferCount > USARTtoUSB_Buffer_Data_size / 2) then
    if inReady then
      (⟨flushLoop send 0 s.buf bufferCount, s.tcnt, s.timeout⟩, ⟨writes, true⟩)
    else
      (s, ⟨writes, true⟩)
  else
    (s, ⟨writes, false⟩)

/-- The state of the relay engine right after startup: `USART_Timeout` is
statically initialised to `0`, the buffer is initialised over the 1024-byte
backing array, and the free-running timer holds an arbitrary value `t0`. -/
def startupState (t0 : Nat) : MainState :=
  ⟨RingBuffer_InitBuffer USARTtoUSB_Buffer_Data_size, t0, 0⟩

/-! ## Bootloader trigger state machine

`handleResetToBootloader` manipulates two 16-bit words of persisted memory
(`*(uint16_t *)MAGIC_KEY_POS` with `MAGIC_KEY_POS = 0x0800`, and
`*(uint16_t *)(RAMEND-1)`) plus the watchdog.  On the AVR8 build
`MAGIC_KEY_POS != RAMEND-1`, so all the `#if MAGIC_KEY_POS != (RAMEND-1)`
blocks are compiled in.  The watchdog (`wdt_enable` / `wdt_disable`) is
modelled as an armed flag. -/
structure BootState where
  /-- the 16-bit word at address `MAGIC_KEY_POS` (0x0800) -/
  keyCell : Nat
  /-- the 16-bit word at address `RAMEND-1` -/
  ramendCell : Nat
  /-- whether the watchdog is armed (`wdt_enable(WDTO_120MS)` vs `wdt_disable()`) -/
  wdtArmed : Bool
  deriving Repr, DecidableEq

/-- `CDC_CONTROL_LINE_OUT_DTR` is bit 0 of the host-to-device control line
mask (LUFA CDC class common definitions). -/
def CDC_CONTROL_LINE_OUT_DTR : Nat := 1

/-- The word read back through the selected magic-key position:
`RAMEND-1` when `_updatedLUFAbootloader` is set, `MAGIC_KEY_POS` otherwise. -/
def keyAtSelectedPos (updated : Bool) (st : BootState) : Nat :=
  if updated then st.ramendCell else st.keyCell

/-- `handleResetToBootloader`:

```
uint16_t magic_key_pos = MAGIC_KEY_POS;
if (_updatedLUFAbootloader) magic_key_pos = (RAMEND-1);
if (BaudRateBPS == 1200 && (ControlLineStates.HostToDevice & CDC_CONTROL_LINE_OUT_DTR) == 0)
{
  if (magic_key_pos != (RAMEND-1))
    *(uint16_t *)(RAMEND-1) = *(uint16_t *)magic_key_pos;
  *(uint16_t *)magic_key_pos = MAGIC_KEY;
  wdt_enable(WDTO_120MS);
}
else
{
  wdt_disable(); wdt_reset();
  if (magic_key_pos != (RAMEND-1))
    *(uint16_t *)magic_key_pos = *(uint16_t *)(RAMEND-1);
  else
    *(uint16_t *)magic_key_pos = 0x0000;
}
```

`updated` is `_updatedLUFAbootloader`, `baud` is
`State.LineEncoding.BaudRateBPS`, `hostLineState` is
`State.ControlLineStates.HostToDevice`. -/
def handleResetToBootloader (updated : Bool) (baud hostLineState : Nat)
    (st : BootState) : BootState :=
  if baud == 1200 && (hostLineState &&& CDC_CONTROL_LINE_OUT_DTR) == 0 then
    if updated then
      ⟨st.keyCell, MAGIC_KEY, true⟩
    else
      ⟨MAGIC_KEY, st.keyCell, true⟩
  else
    if updated then
      ⟨st.keyCell, 0, false⟩
    else
      ⟨st.ramendCell, st.ramendCell, false⟩

/-- The trigger condition of `handleResetToBootloader`: baud rate 1200 and
host DTR bit clear. -/
def bootTriggerCond (baud hostLineState : Nat) : Bool :=
  baud == 1200 && (hostLineState &&& CDC_CONTROL_LINE_OUT_DTR) == 0

/-- `EVENT_CDC_Device_ControLineStateChanged` just forwards to
`handleResetToBootloader`. -/
def EVENT_CDC_Device_ControLineStateChanged (updated : Bool)
    (baud hostLineState : Nat) (st : BootState) : BootState :=
  handleResetToBootloader updated baud hostLineState st

/-! ## Capability flag resolution in `SetupHardware`

```
static bool _updatedLUFAbootloader = false;
...
#if MAGIC_KEY_POS != (RAMEND-1)
  if (pgm_read_word(FLASHEND - 1) == NEW_LUFA_SIGNATURE)
    _updatedLUFAbootloader = true;
#endif
```

The flash word at `FLASHEND-1` is an input probed exactly once, at startup. -/
def setup_updatedLUFAbootloader (flashSignatureWord : Nat) : Bool :=
  flashSignatureWord == NEW_LUFA_SIGNATURE

/-- The whole-device view needed for the trigger state machine: the probed
flash word, the capability flag resolved at startup, and the persisted
memory / watchdog state. -/
structure Device where
  flashSignatureWord : Nat
  updatedLUFAbootloader : Bool
  boot : BootState
  deriving Repr, DecidableEq

/-- Startup: resolve the capability flag from the flash signature word. -/
def deviceSetup (flashSignatureWord : Nat) (boot : BootState) : Device :=
  ⟨flashSignatureWord, setup_updatedLUFAbootloader flashSignatureWord, boot⟩

/-- A trigger event (control-line-state change or line-encoding change):
branches through the stored capability flag, never re-probing the flash. -/
def deviceTriggerEvent (baud hostLineState : Nat) (d : Device) : Device :=
  ⟨d.flashSignatureWord, d.updatedLUFAbootloader,
    handleResetToBootloader d.updatedLUFAbootloader baud hostLineState d.boot⟩

/-! ## Line-encoding handler: `EVENT_CDC_Device_LineEncodingChanged` -/

/-- CDC line-encoding state, from `State.LineEncoding` (LUFA CDC driver):
`CharFormat` stop-bit code, `ParityType` code, `DataBits` count. -/
structure CDC_LineEncoding where
  BaudRateBPS : Nat
  CharFormat : Nat
  ParityType : Nat
  DataBits : Nat
  deriving Repr, DecidableEq

/-- `CDC_PARITY_Odd = 1` (LUFA CDC class common definitions). -/
def CDC_PARITY_Odd : Nat := 1

/-- `CDC_PARITY_Even = 2`. -/
def CDC_PARITY_Even : Nat := 2

/-- `CDC_LINEENCODING_TwoStopBits = 2`. -/
def CDC_LINEENCODING_TwoStopBits : Nat := 2

/-! AVR8 USART1 register bit numbers (ATmega32U4 I/O header):
`UPM11 = 5`, `UPM10 = 4`, `USBS1 = 3`, `UCSZ11 = 2`, `UCSZ10 = 1`,
`U2X1 = 1`, `RXCIE1 = 7`, `TXEN1 = 3`, `RXEN1 = 4`. -/

def UPM11 : Nat := 5
def UPM10 : Nat := 4
def USBS1 : Nat := 3
def UCSZ11 : Nat := 2
def UCSZ10 : Nat := 1
def U2X1 : Nat := 1
def RXCIE1 : Nat := 7
def TXEN1 : Nat := 3
def RXEN1 : Nat := 4

/-- The `ConfigMask` computed by `EVENT_CDC_Device_LineEncodingChanged` from
the parity, stop-bit and data-bit fields of the requested encoding. -/
def lineEncodingConfigMask (enc : CDC_LineEncoding) : Nat :=
  let m :=
    if enc.ParityType == CDC_PARITY_Odd then (1 <<< UPM11) ||| (1 <<< UPM10)
    else if enc.ParityType == CDC_PARITY_Even then (1 <<< UPM11)
    else 0
  let m := if enc.CharFormat == CDC_LINEENCODING_TwoStopBits then m ||| (1 <<< USBS1) else m
  if enc.DataBits == 6 then m ||| (1 <<< UCSZ10)
  else if enc.DataBits == 7 then m ||| (1 <<< UCSZ11)
  else if enc.DataBits == 8 then m ||| (1 <<< UCSZ11) ||| (1 <<< UCSZ10)
  else m

/-- Modelled from the spec: LUFA's `SERIAL_2X_UBBRVAL(Baud)` baud-rate divisor
macro for double-speed mode, `(((F_CPU / 8) + (Baud / 2)) / (Baud)) - 1`, with
the 16 MHz system clock of this board; the macro lives in the external LUFA
serial driver, outside `src/`.  What the claims use is only that the divisor
is a function of the requested baud rate. -/
def SERIAL_2X_UBBRVAL (baud : Nat) : Nat :=
  (16000000 / 8 + baud / 2) / baud - 1

/-- One write performed by the line-encoding handler, in program order:
setting/clearing the TX line hold (PORTD bit 3) or writing a USART register. -/
inductive UartWrite where
  | txHoldHigh : UartWrite
  | txRelease : UartWrite
  | ucsr1a (v : Nat) : UartWrite
  | ucsr1b (v : Nat) : UartWrite
  | ucsr1c (v : Nat) : UartWrite
  | ubrr1 (v : Nat) : UartWrite
  deriving Repr, DecidableEq

/-- Whether a write targets a USART configuration register (as opposed to the
TX-line hold on PORTD). -/
def UartWrite.isUsartRegWrite : UartWrite → Bool
  | .txHoldHigh => false
  | .txRelease => false
  | _ => true

/-- The sequence of hardware writes performed by
`EVENT_CDC_Device_LineEncodingChanged` after the bootloader-trigger check:

```
PORTD |= (1 << 3);
UCSR1B = 0; UCSR1A = 0; UCSR1C = 0;
UBRR1  = SERIAL_2X_UBBRVAL(...BaudRateBPS);
UCSR1C = ConfigMask;
UCSR1A = (1 << U2X1);
UCSR1B = ((1 << RXCIE1) | (1 << TXEN1) | (1 << RXEN1));
PORTD &= ~(1 << 3);
``` -/
def lineEncodingWrites (enc : CDC_LineEncoding) : List UartWrite :=
  [UartWrite.txHoldHigh,
   UartWrite.ucsr1b 0, UartWrite.ucsr1a 0, UartWrite.ucsr1c 0,
   UartWrite.ubrr1 (SERIAL_2X_UBBRVAL enc.BaudRateBPS),
   UartWrite.ucsr1c (lineEncodingConfigMask enc),
   UartWrite.ucsr1a (1 <<< U2X1),
   UartWrite.ucsr1b ((1 <<< RXCIE1) ||| (1 <<< TXEN1) ||| (1 <<< RXEN1)),
   UartWrite.txRelease]

/-- `EVENT_CDC_Device_LineEncodingChanged`: first runs the bootloader-trigger
handler, then reconfigures the USART, producing the write trace. -/
def EVENT_CDC_Device_LineEncodingChanged (updated : Bool) (hostLineState : Nat)
    (enc : CDC_LineEncoding) (st : BootState) : BootState × List UartWrite :=
  (handleResetToBootloader updated enc.BaudRateBPS hostLineState st,
   lineEncodingWrites enc)

/-! ## Helper lemmas on the circular buffer view -/

lemma getD_tail (l : List Nat) (j d : Nat) : l.tail.getD j d = l.getD (j + 1) d := by
  cases l <;> rfl

lemma drop_tail (l : List Nat) (k : Nat) : l.tail.drop k = l.drop (k + 1) := by
  cases l <;> simp

lemma bufContents_length (rb : RingBuffer_t) : (bufContents rb).length = rb.count := by
  simp [bufContents]

lemma capacity_remove (rb : RingBuffer_t) :
    (RingBuffer_Remove rb).capacity = rb.capacity := rfl

lemma count_remove (rb : RingBuffer_t) :
    (RingBuffer_Remove rb).count = rb.count - 1 := rfl

lemma wf_remove (rb : RingBuffer_t) (hwf : rb.wf) : (RingBuffer_Remove rb).wf := by
  obtain ⟨hrd, hcnt⟩ := hwf
  have hcap : 0 < rb.capacity := Nat.lt_of_le_of_lt (Nat.zero_le _) hrd
  refine ⟨?_, ?_⟩
  · rw [capacity_remove]
    exact Nat.mod_lt _ hcap
  · rw [count_remove, capacity_remove]
    omega

lemma peek_eq_getD_zero (rb : RingBuffer_t) (hwf : rb.wf) (hc : 0 < rb.count) :
    RingBuffer_Peek rb = (bufContents rb).getD 0 0 := by
  obtain ⟨hrd, _⟩ := hwf
  obtain ⟨c, hc'⟩ : ∃ c, rb.count = c + 1 := ⟨rb.count - 1, by omega⟩
  simp only [RingBuffer_Peek, bufContents, hc', List.range_succ_eq_map, List.map_cons,
    List.getD_cons_zero, Nat.add_zero]
  rw [Nat.mod_eq_of_lt hrd]

lemma bufContents_remove (rb : RingBuffer_t) (hwf : rb.wf) (hc : 0 < rb.count) :
    bufContents (RingBuffer_Remove rb) = (bufContents rb).tail := by
  obtain ⟨hrd, _⟩ := hwf
  have hcap : 0 < rb.capacity := Nat.lt_of_le_of_lt (Nat.zero_le _) hrd
  obtain ⟨c, hc'⟩ : ∃ c, rb.count = c + 1 := ⟨rb.count - 1, by omega⟩
  simp only [bufContents, RingBuffer_Remove, RingBuffer_t.capacity, hc', Nat.add_sub_cancel,
    List.range_succ_eq_map, List.map_cons, List.tail_cons, List.map_map]
  apply List.map_congr_left
  intro i _
  simp only [Function.comp_apply]
  congr 1
  rw [Nat.mod_add_mod]
  congr 1
  omega

/-- Core behaviour of the flush loop: if the first `k` send attempts succeed
and attempt `k` (zero-based) fails, the loop removes exactly the first `k`
bytes and stops, leaving the failed byte at the head. -/
lemma flushLoop_spec (send : Nat → Nat → Nat) :
    ∀ (k i : Nat) (rb : RingBuffer_t), rb.wf → k < rb.count →
      (∀ j, j < k → send (i + j) ((bufContents rb).getD j 0) = 0) →
      send (i + k) ((bufContents rb).getD k 0) ≠ 0 →
      (flushLoop send i rb rb.count).wf ∧
      (flushLoop send i rb rb.count).count = rb.count - k ∧
      bufContents (flushLoop send i rb rb.count) = (bufContents rb).drop k := by
  intro k
  induction k with
  | zero =>
    intro i rb hwf hk _ hfail
    obtain ⟨c, hc'⟩ : ∃ c, rb.count = c + 1 := ⟨rb.count - 1, by omega⟩
    have hpeek : RingBuffer_Peek rb = (bufContents rb).getD 0 0 :=
      peek_eq_getD_zero rb hwf (by omega)
    rw [hc']
    simp only [flushLoop, hpeek]
    rw [if_pos (by simpa using hfail)]
    refine ⟨hwf, by omega, by simp⟩
  | succ k ih =>
    intro i rb hwf hk hsucc hfail
    obtain ⟨c, hc'⟩ : ∃ c, rb.count = c + 1 := ⟨rb.count - 1, by omega⟩
    have hpeek : RingBuffer_Peek rb = (bufContents rb).getD 0 0 :=
      peek_eq_getD_zero rb hwf (by omega)
    have h0 : send i ((bufContents rb).getD 0 0) = 0 := by
      simpa using hsucc 0 (Nat.succ_pos k)
    rw [hc']
    simp only [flushLoop, hpeek]
    rw [if_neg (not_not_intro h0)]
    have hwf' : (RingBuffer_Remove rb).wf := wf_remove rb hwf
    have hcnt' : (RingBuffer_Remove rb).count = c := by
      simp [count_remove, hc']
    have htail : bufContents (RingBuffer_Remove rb) = (bufContents rb).tail :=
      bufContents_remove rb hwf (by omega)
    have hsucc' : ∀ j, j < k →
        send (i + 1 + j) ((bufContents (RingBuffer_Remove rb)).getD j 0) = 0 := by
      intro j hj
      rw [htail, getD_tail, show i + 1 + j = i + (j + 1) from by omega]
      exact hsucc (j + 1) (by omega)
    have hfail' :
        send (i + 1 + k) ((bufContents (RingBuffer_Remove rb)).getD k 0) ≠ 0 := by
      rw [htail, getD_tail, show i + 1 + k = i + (k + 1) from by omega]
      exact hfail
    have := ih (i + 1) (RingBuffer_Remove rb) hwf' (by omega) hsucc' hfail'
    rw [hcnt'] at this
    refine ⟨this.1, ?_, ?_⟩
    · rw [this.2.1]
      omega
    · rw [this.2.2, htail, drop_tail]

lemma getD_drop_zero (k : Nat) : ∀ (l : List Nat) (d : Nat), (l.drop k).getD 0 d = l.getD k d := by
  induction k with
  | zero => intro l d; rfl
  | succ k ih =>
    intro l d
    cases l with
    | nil => simp
    | cons a t => exact ih t d

/-! ## Projection lemmas for one main-loop iteration -/

/-- The boolean flush-trigger condition as evaluated by `main`. -/
def flushTriggerCond (s : MainState) : Bool :=
  (RingBuffer_GetCount s.buf != 0 && decide (s.tcnt ≥ s.timeout))
    || decide (RingBuffer_GetCount s.buf > USARTtoUSB_Buffer_Data_size / 2)

lemma mainIteration_eq (rx : List Int) (inReady : Bool) (send : Nat → Nat → Nat)
    (s : MainState) :
    mainIteration rx inReady send s =
      if flushTriggerCond s then
        if inReady then
          (⟨flushLoop send 0 s.buf (RingBuffer_GetCount s.buf), s.tcnt, s.timeout⟩,
            ⟨egressRelay rx, true⟩)
        else (s, ⟨egressRelay rx, true⟩)
      else (s, ⟨egressRelay rx, false⟩) := rfl

lemma mainIteration_writes (rx : List Int) (inReady : Bool) (send : Nat → Nat → Nat)
    (s : MainState) : (mainIteration rx inReady send s).2.uartWrites = egressRelay rx := by
  rw [mainIteration_eq]
  cases hcond : flushTriggerCond s <;> cases inReady <;> simp [hcond]

lemma mainIteration_selected (rx : List Int) (inReady : Bool) (send : Nat → Nat → Nat)
    (s : MainState) :
    (mainIteration rx inReady send s).2.inEndpointSelected = flushTriggerCond s := by
  rw [mainIteration_eq]
  cases hcond : flushTriggerCond s <;> cases inReady <;> simp [hcond]

lemma mainIteration_buf_flush (rx : List Int) (send : Nat → Nat → Nat) (s : MainState)
    (h : flushTriggerCond s = true) :
    (mainIteration rx true send s).1.buf
      = flushLoop send 0 s.buf (RingBuffer_GetCount s.buf) := by
  rw [mainIteration_eq, if_pos h]
  rfl

lemma egressRelay_spec (r : Int) (hr : r < 0) :
    ∀ (front rest : List Int), (∀ x ∈ front, 0 ≤ x ∧ x < 256) →
      egressRelay (front ++ r :: rest) = front.map Int.toNat := by
  intro front
  induction front with
  | nil =>
    intro rest _
    simp [egressRelay, hr]
  | cons a t ih =>
    intro rest hf
    have ha := hf a (by simp)
    simp only [List.cons_append, egressRelay, List.append_eq]
    rw [if_neg (by omega)]
    rw [ih rest (fun x hx => hf x (by simp [hx]))]
    have hmod : a.toNat % 256 = a.toNat := Nat.mod_eq_of_lt (by omega)
    simp [hmod]

/-! ## Claims -/

/-- C1: in every main-loop iteration, a flush attempt toward the USB IN
endpoint (selecting the IN endpoint) occurs if and only if either the buffer
count is non-zero and the free-running timer has reached the armed deadline,
or the count exceeds half the 1024-byte capacity (512); in particular a count
of 513 with no elapsed time triggers an attempt, and a count of 1 with the
timer past the deadline triggers one. -/
theorem flush_attempt_iff :
    (∀ (rx : List Int) (inReady : Bool) (send : Nat → Nat → Nat) (s : MainState),
      (mainIteration rx inReady send s).2.inEndpointSelected = true ↔
        ((RingBuffer_GetCount s.buf ≠ 0 ∧ s.tcnt ≥ s.timeout) ∨
          RingBuffer_GetCount s.buf > 512)) ∧
    (mainIteration [] false (fun _ _ => 0)
        ⟨⟨List.replicate 1024 0, 0, 513, 513⟩, 0, 200⟩).2.inEndpointSelected = true ∧
    (mainIteration [] false (fun _ _ => 0)
        ⟨⟨List.replicate 1024 0, 0, 1, 1⟩, 250, 200⟩).2.inEndpointSelected = true := by
  refine ⟨?_, ?_, ?_⟩
  · intro rx inReady send s
    rw [mainIteration_selected]
    simp [flushTriggerCond, USARTtoUSB_Buffer_Data_size, Bool.or_eq_true, Bool.and_eq_true,
      bne_iff_ne, decide_eq_true_eq]
  · rfl
  · rfl

/-- Witness for C1 at a concrete state: count 1, timer 5, deadline 3. -/
theorem flush_attempt_iff_witness :
    (mainIteration [] true (fun _ _ => 1)
        ⟨⟨[0, 0, 0, 0], 0, 1, 1⟩, 5, 3⟩).2.inEndpointSelected = true :=
  (flush_attempt_iff.1 [] true (fun _ _ => 1) ⟨⟨[0, 0, 0, 0], 0, 1, 1⟩, 5, 3⟩).mpr
    (Or.inl ⟨by decide, by decide⟩)

/-- C2 counterexample: an accepted byte into a non-empty buffer with 64
elapsed ticks stores deadline 0, not 4 × 64 = 256 — the deadline is a
`uint8_t`, so the recomputation truncates modulo 256. -/
theorem isr_deadline_counterexample :
    RingBuffer_GetCount (⟨[7, 0, 0, 0], 0, 1, 1⟩ : RingBuffer_t) ≠ 0 ∧
    RingBuffer_IsFull (⟨[7, 0, 0, 0], 0, 1, 1⟩ : RingBuffer_t) = false ∧
    (USART1_RX_vect true 9 ⟨⟨[7, 0, 0, 0], 0, 1, 1⟩, 64, 5⟩).state.timeout = 0 ∧
    (0 : Nat) ≠ 4 * 64 := by
  decide

lemma shift_trunc (t : Nat) : ((t <<< 2) % 65536) % 256 = 4 * t % 256 := by
  rw [Nat.shiftLeft_eq]
  have h : ((t * 2 ^ 2) % 65536) % 256 = (t * 2 ^ 2) % 256 :=
    Nat.mod_mod_of_dvd _ (by norm_num)
  rw [h, show t * 2 ^ 2 = 4 * t from by ring]

/-- C2 (amended): in the UART receive handler, when the byte is accepted and
the buffer is non-empty, the deadline is recomputed as 4 × the elapsed ticks
reduced modulo 256 (8-bit storage); it is not recomputed when the buffer is
empty; and in every accepting path the timer is reset to zero and the byte is
inserted. -/
theorem isr_deadline_rearm (udr1 : Nat) (s : MainState)
    (hfull : RingBuffer_IsFull s.buf = false) :
    (RingBuffer_GetCount s.buf ≠ 0 →
      (USART1_RX_vect true udr1 s).state.timeout = 4 * s.tcnt % 256) ∧
    (RingBuffer_GetCount s.buf = 0 →
      (USART1_RX_vect true udr1 s).state.timeout = s.timeout) ∧
    (USART1_RX_vect true udr1 s).state.tcnt = 0 ∧
    (USART1_RX_vect true udr1 s).state.buf = RingBuffer_Insert s.buf (udr1 % 256) := by
  refine ⟨fun h => ?_, fun h => ?_, ?_, ?_⟩ <;>
    simp_all [USART1_RX_vect, shift_trunc]

/-- Witness for C2 (amended): 10 elapsed ticks rearm the deadline to 40. -/
theorem isr_deadline_rearm_witness :
    (USART1_RX_vect true 9 ⟨⟨[7, 0, 0, 0], 0, 1, 1⟩, 10, 5⟩).state.timeout = 40 ∧
    (USART1_RX_vect true 9 ⟨⟨[7, 0, 0, 0], 0, 1, 1⟩, 10, 5⟩).state.tcnt = 0 := by
  have h := isr_deadline_rearm 9 ⟨⟨[7, 0, 0, 0], 0, 1, 1⟩, 10, 5⟩ (by decide)
  exact ⟨by rw [h.1 (by decide)]; decide, h.2.2.1⟩

/-- C3: if a flush attempt finds the IN endpoint ready and, of the m buffered
bytes, the per-byte send primitive succeeds for the first k attempts and
reports a non-zero error on attempt k (zero-based), then the flush stops with
exactly m − k bytes left, the failed byte still queued, and the next byte to
be peeked being byte k (zero-based, i.e. byte k+1 in arrival order). -/
theorem flush_error_preserves_tail (rx : List Int) (send : Nat → Nat → Nat)
    (s : MainState) (k : Nat)
    (hwf : s.buf.wf)
    (hcond : (RingBuffer_GetCount s.buf ≠ 0 ∧ s.tcnt ≥ s.timeout) ∨
      RingBuffer_GetCount s.buf > 512)
    (hk : k < RingBuffer_GetCount s.buf)
    (hsucc : ∀ j, j < k → send j ((bufContents s.buf).getD j 0) = 0)
    (hfail : send k ((bufContents s.buf).getD k 0) ≠ 0) :
    RingBuffer_GetCount (mainIteration rx true send s).1.buf
        = RingBuffer_GetCount s.buf - k ∧
    bufContents (mainIteration rx true send s).1.buf = (bufContents s.buf).drop k ∧
    RingBuffer_Peek (mainIteration rx true send s).1.buf
        = (bufContents s.buf).getD k 0 := by
  have hb : flushTriggerCond s = true := by
    rcases hcond with ⟨h1, h2⟩ | h1 <;>
      simp_all [flushTriggerCond, USARTtoUSB_Buffer_Data_size]
  rw [mainIteration_buf_flush rx send s hb]
  have hgc : RingBuffer_GetCount s.buf = s.buf.count := rfl
  rw [hgc]
  have hk' : k < s.buf.count := hk
  have hsucc' : ∀ j, j < k → send (0 + j) ((bufContents s.buf).getD j 0) = 0 := by
    intro j hj
    simpa using hsucc j hj
  have hfail' : send (0 + k) ((bufContents s.buf).getD k 0) ≠ 0 := by
    simpa using hfail
  have h := flushLoop_spec send k 0 s.buf hwf hk' hsucc' hfail'
  refine ⟨h.2.1, h.2.2, ?_⟩
  rw [peek_eq_getD_zero _ h.1 (by rw [h.2.1]; omega), h.2.2, getD_drop_zero]

/-- Witness for C3: three buffered bytes, the second send attempt fails:
two bytes remain and the failed byte 20 is the next to be sent. -/
theorem flush_error_preserves_tail_witness :
    RingBuffer_GetCount (mainIteration [] true (fun i _ => if i == 0 then 0 else 1)
        ⟨⟨[10, 20, 30, 0], 0, 3, 3⟩, 5, 0⟩).1.buf = 2 ∧
    RingBuffer_Peek (mainIteration [] true (fun i _ => if i == 0 then 0 else 1)
        ⟨⟨[10, 20, 30, 0], 0, 3, 3⟩, 5, 0⟩).1.buf = 20 := by
  have h := flush_error_preserves_tail [] (fun i _ => if i == 0 then 0 else 1)
    ⟨⟨[10, 20, 30, 0], 0, 3, 3⟩, 5, 0⟩ 1 ⟨by decide, by decide⟩
    (Or.inl ⟨by decide, by decide⟩) (by decide)
    (by intro j hj; have hj0 : j = 0 := by omega
        subst hj0; decide)
    (by decide)
  refine ⟨by rw [h.1]; decide, by rw [h.2.2]; decide⟩

/-- C4: when the USB device is not configured or the buffer is full, the
receive interrupt handler reads the UART receive register and returns with
the byte discarded: buffer, deadline and timer are all unchanged. -/
theorem isr_discard_frame (usbConfigured : Bool) (udr1 : Nat) (s : MainState)
    (h : usbConfigured = false ∨ RingBuffer_IsFull s.buf = true) :
    USART1_RX_vect usbConfigured udr1 s = ⟨s, true⟩ := by
  unfold USART1_RX_vect
  rcases h with h | h <;> subst_eqs <;> simp_all

/-- Witness for C4: a byte arriving while the device is not configured is
discarded without touching the state. -/
theorem isr_discard_frame_witness :
    USART1_RX_vect false 77 (startupState 5) = ⟨startupState 5, true⟩ :=
  isr_discard_frame false 77 (startupState 5) (Or.inl rfl)

/-- C5: the egress relay writes to the UART exactly the bytes reported
available by the USB layer, in order, none skipped or duplicated, and the
inner loop stops at the first negative result. -/
theorem egress_relay_in_order (front : List Int) (r : Int) (rest : List Int)
    (inReady : Bool) (send : Nat → Nat → Nat) (s : MainState)
    (hfront : ∀ x ∈ front, 0 ≤ x ∧ x < 256) (hr : r < 0) :
    (mainIteration (front ++ r :: rest) inReady send s).2.uartWrites
      = front.map Int.toNat := by
  rw [mainIteration_writes, egressRelay_spec r hr front rest hfront]

/-- Witness for C5: bytes 0x41 0x42 0x43 then the no-data sentinel produce
exactly the UART writes 0x41, 0x42, 0x43. -/
theorem egress_relay_in_order_witness :
    (mainIteration [65, 66, 67, -1] false (fun _ _ => 0)
        (startupState 0)).2.uartWrites = [65, 66, 67] := by
  have h := egress_relay_in_order [65, 66, 67] (-1) [] false (fun _ _ => 0)
    (startupState 0) (by decide) (by decide)
  rw [show ([65, 66, 67, -1] : List Int) = [65, 66, 67] ++ (-1) :: [] from rfl, h]
  decide

lemma handleResetToBootloader_eq (updated : Bool) (baud hostLineState : Nat)
    (st : BootState) :
    handleResetToBootloader updated baud hostLineState st =
      if bootTriggerCond baud hostLineState then
        if updated then ⟨st.keyCell, MAGIC_KEY, true⟩
        else ⟨MAGIC_KEY, st.keyCell, true⟩
      else
        if updated then ⟨st.keyCell, 0, false⟩
        else ⟨st.ramendCell, st.ramendCell, false⟩ := rfl

/-- C6 counterexample: with the old-generation location (capability flag
clear), a disarm event (baud 9600, DTR set) copies the RAMEND-1 word into the
key location; when that word happens to equal the magic key, the key is
present at the selected location although the most recently observed state
does not satisfy the trigger condition, refuting the claimed equivalence. -/
theorem boot_key_iff_counterexample :
    bootTriggerCond 9600 1 = false ∧
    keyAtSelectedPos false
        (EVENT_CDC_Device_ControLineStateChanged false 9600 1 ⟨0, MAGIC_KEY, false⟩)
      = MAGIC_KEY := by
  decide

/-- C6 (amended): on every trigger event, if baud = 1200 and DTR is clear the
magic key is written to the selected location and the watchdog armed;
otherwise the watchdog is disarmed and the key location is cleared (new
generation) or overwritten with the RAMEND-1 backup word (old generation); for
the new-generation location the key is present iff the most recent state
satisfies the trigger condition.  Both CDC events funnel into the handler. -/
theorem boot_trigger_state (updated : Bool) (baud hostLineState cf pt db : Nat)
    (st : BootState) :
    (bootTriggerCond baud hostLineState = true →
      keyAtSelectedPos updated (handleResetToBootloader updated baud hostLineState st)
          = MAGIC_KEY ∧
      (handleResetToBootloader updated baud hostLineState st).wdtArmed = true) ∧
    (bootTriggerCond baud hostLineState = false →
      (handleResetToBootloader updated baud hostLineState st).wdtArmed = false ∧
      (updated = true →
        (handleResetToBootloader updated baud hostLineState st).ramendCell = 0) ∧
      (updated = false →
        (handleResetToBootloader updated baud hostLineState st).keyCell = st.ramendCell)) ∧
    (updated = true →
      (keyAtSelectedPos true (handleResetToBootloader true baud hostLineState st)
          = MAGIC_KEY ↔ bootTriggerCond baud hostLineState = true)) ∧
    EVENT_CDC_Device_ControLineStateChanged updated baud hostLineState st
      = handleResetToBootloader updated baud hostLineState st ∧
    (EVENT_CDC_Device_LineEncodingChanged updated hostLineState ⟨baud, cf, pt, db⟩ st).1
      = handleResetToBootloader updated baud hostLineState st := by
  refine ⟨fun ht => ?_, fun hf => ?_, fun hu => ?_, rfl, rfl⟩
  · rw [handleResetToBootloader_eq, if_pos ht]
    cases updated <;> simp [keyAtSelectedPos]
  · rw [handleResetToBootloader_eq, if_neg (by simp [hf])]
    cases updated <;> simp [keyAtSelectedPos]
  · subst hu
    rw [handleResetToBootloader_eq]
    cases hb : bootTriggerCond baud hostLineState
    · rw [if_neg (by simp)]
      simp [keyAtSelectedPos, MAGIC_KEY]
    · rw [if_pos rfl]
      simp [keyAtSelectedPos]

/-- Witness for C6 (amended): a 1200-baud, DTR-clear event on the new
bootloader generation writes the key and arms the watchdog. -/
theorem boot_trigger_state_witness :
    keyAtSelectedPos true (handleResetToBootloader true 1200 0 ⟨11, 22, false⟩) = MAGIC_KEY ∧
    (handleResetToBootloader true 1200 0 ⟨11, 22, false⟩).wdtArmed = true :=
  (boot_trigger_state true 1200 0 0 0 8 ⟨11, 22, false⟩).1 (by decide)

/-- C7 counterexample: a disarm event with no prior arm does not leave the
persisted memory unchanged — with the capability flag clear it overwrites the
key location with the RAMEND-1 word. -/
theorem boot_disarm_counterexample :
    bootTriggerCond 9600 1 = false ∧
    handleResetToBootloader false 9600 1 ⟨1, 2, false⟩ ≠ ⟨1, 2, false⟩ := by
  decide

/-- C7 (amended): disarming restores the magic-key location itself — after an
arm-then-disarm sequence the key location regains its pre-arm value for both
generations — but it is not a full inverse of arming: on the old generation
the RAMEND-1 backup location retains the backed-up copy and a disarm without
prior arm overwrites the key location with the RAMEND-1 word, and on the new
generation disarm clears the RAMEND-1 cell to zero unconditionally. -/
theorem boot_disarm_effects (updated : Bool) (baud ls baud' ls' : Nat) (st : BootState)
    (harm : bootTriggerCond baud ls = true)
    (hdis : bootTriggerCond baud' ls' = false) :
    (handleResetToBootloader false baud' ls'
        (handleResetToBootloader false baud ls st)).keyCell = st.keyCell ∧
    (handleResetToBootloader false baud' ls'
        (handleResetToBootloader false baud ls st)).ramendCell = st.keyCell ∧
    (handleResetToBootloader true baud' ls'
        (handleResetToBootloader true baud ls st)).keyCell = st.keyCell ∧
    (handleResetToBootloader true baud' ls'
        (handleResetToBootloader true baud ls st)).ramendCell = 0 ∧
    (handleResetToBootloader false baud' ls' st).keyCell = st.ramendCell ∧
    (handleResetToBootloader true baud' ls' st).ramendCell = 0 ∧
    (handleResetToBootloader updated baud' ls' st).wdtArmed = false := by
  cases updated <;>
    simp [handleResetToBootloader_eq, harm, hdis]

/-- Witness for C7 (amended): arm then disarm on the old generation restores
the key cell to its pre-arm value 5 and leaves 5 in the backup cell too. -/
theorem boot_disarm_effects_witness :
    (handleResetToBootloader false 9600 1
        (handleResetToBootloader false 1200 0 ⟨5, 6, false⟩)).keyCell = 5 ∧
    (handleResetToBootloader false 9600 1
        (handleResetToBootloader false 1200 0 ⟨5, 6, false⟩)).ramendCell = 5 := by
  have h := boot_disarm_effects false 1200 0 9600 1 ⟨5, 6, false⟩ (by decide) (by decide)
  exact ⟨h.1, h.2.1⟩

/-- C8: the capability flag is resolved once at startup by comparing the
flash word at FLASHEND-1 against 0xDCFB; a trigger event with the flag set
writes the key to the RAMEND-1 cell (leaving 0x0800 untouched), with the flag
clear it writes the key to 0x0800 after first saving that location's previous
contents into the backup cell; and a trigger event never re-probes the flash
signature — its effect is independent of the flash word. -/
theorem magic_key_location_capability (flash : Nat) (b0 : BootState)
    (baud ls : Nat) (d : Device) (htrig : bootTriggerCond baud ls = true) :
    (deviceSetup flash b0).updatedLUFAbootloader = (flash == NEW_LUFA_SIGNATURE) ∧
    (deviceSetup flash b0).boot = b0 ∧
    (d.updatedLUFAbootloader = true →
      (deviceTriggerEvent baud ls d).boot.ramendCell = MAGIC_KEY ∧
      (deviceTriggerEvent baud ls d).boot.keyCell = d.boot.keyCell) ∧
    (d.updatedLUFAbootloader = false →
      (deviceTriggerEvent baud ls d).boot.keyCell = MAGIC_KEY ∧
      (deviceTriggerEvent baud ls d).boot.ramendCell = d.boot.keyCell) ∧
    (∀ flash', (deviceTriggerEvent baud ls ⟨flash', d.updatedLUFAbootloader, d.boot⟩).boot
        = (deviceTriggerEvent baud ls d).boot) := by
  refine ⟨rfl, rfl, fun h => ?_, fun h => ?_, fun flash' => rfl⟩ <;>
    simp [deviceTriggerEvent, handleResetToBootloader_eq, htrig, h]

/-- Witness for C8: with the flag clear, a trigger writes the key to the
0x0800 cell and saves its old contents 9 into the backup cell. -/
theorem magic_key_location_capability_witness :
    (deviceTriggerEvent 1200 0 ⟨0, false, ⟨9, 8, false⟩⟩).boot.keyCell = MAGIC_KEY ∧
    (deviceTriggerEvent 1200 0 ⟨0, false, ⟨9, 8, false⟩⟩).boot.ramendCell = 9 := by
  have h := magic_key_location_capability 0 ⟨0, 0, false⟩ 1200 0
    ⟨0, false, ⟨9, 8, false⟩⟩ (by decide)
  exact ⟨(h.2.2.2.1 rfl).1, (h.2.2.2.1 rfl).2⟩

/-- C9: on a line-encoding change the handler holds the TX line high, then
rewrites only USART registers — among them the baud divisor derived from the
requested baud rate and the configuration mask — and releases the TX line
last; the mask encodes the requested parity, stop-bit count and data-bit
width in the UPM, USBS and UCSZ register bits. -/
theorem line_encoding_reconfig (updated : Bool) (ls : Nat) (enc : CDC_LineEncoding)
    (st : BootState)
    (hp : enc.ParityType = 0 ∨ enc.ParityType = CDC_PARITY_Odd ∨
      enc.ParityType = CDC_PARITY_Even)
    (hs : enc.CharFormat = 0 ∨ enc.CharFormat = CDC_LINEENCODING_TwoStopBits)
    (hd : enc.DataBits = 6 ∨ enc.DataBits = 7 ∨ enc.DataBits = 8) :
    (∃ mid, (EVENT_CDC_Device_LineEncodingChanged updated ls enc st).2
        = UartWrite.txHoldHigh :: mid ++ [UartWrite.txRelease] ∧
      (∀ w ∈ mid, w.isUsartRegWrite = true) ∧
      UartWrite.ubrr1 (SERIAL_2X_UBBRVAL enc.BaudRateBPS) ∈ mid ∧
      UartWrite.ucsr1c (lineEncodingConfigMask enc) ∈ mid) ∧
    ((lineEncodingConfigMask enc).testBit UPM11 = decide (enc.ParityType ≠ 0)) ∧
    ((lineEncodingConfigMask enc).testBit UPM10 = (enc.ParityType == CDC_PARITY_Odd)) ∧
    ((lineEncodingConfigMask enc).testBit USBS1
        = (enc.CharFormat == CDC_LINEENCODING_TwoStopBits)) ∧
    ((lineEncodingConfigMask enc).testBit UCSZ11
        = (enc.DataBits == 7 || enc.DataBits == 8)) ∧
    ((lineEncodingConfigMask enc).testBit UCSZ10
        = (enc.DataBits == 6 || enc.DataBits == 8)) := by
  obtain ⟨baud, cf, pt, db⟩ := enc
  constructor
  · refine ⟨[UartWrite.ucsr1b 0, UartWrite.ucsr1a 0, UartWrite.ucsr1c 0,
      UartWrite.ubrr1 (SERIAL_2X_UBBRVAL baud),
      UartWrite.ucsr1c (lineEncodingConfigMask ⟨baud, cf, pt, db⟩),
      UartWrite.ucsr1a (1 <<< U2X1),
      UartWrite.ucsr1b ((1 <<< RXCIE1) ||| (1 <<< TXEN1) ||| (1 <<< RXEN1))],
      rfl, ?_, by simp, by simp⟩
    intro w hw
    fin_cases hw <;> rfl
  · rcases hp with h1 | h1 | h1 <;> rcases hs with h2 | h2 <;>
      rcases hd with h3 | h3 | h3 <;>
      simp only [CDC_PARITY_Odd, CDC_PARITY_Even, CDC_LINEENCODING_TwoStopBits] at h1 h2 h3 <;>
      subst h1 <;> subst h2 <;> subst h3 <;>
      simp [lineEncodingConfigMask, CDC_PARITY_Odd, CDC_PARITY_Even,
        CDC_LINEENCODING_TwoStopBits, UPM11, UPM10, USBS1, UCSZ11, UCSZ10] <;>
      decide

/-- Witness for C9 at encoding 9600 8O2: odd parity sets UPM11, two stop bits
set USBS1, and the divisor write for baud 9600 occurs between the TX hold and
release. -/
theorem line_encoding_reconfig_witness :
    (lineEncodingConfigMask ⟨9600, 2, 1, 8⟩).testBit UPM11 = true ∧
    (lineEncodingConfigMask ⟨9600, 2, 1, 8⟩).testBit USBS1 = true ∧
    UartWrite.ubrr1 (SERIAL_2X_UBBRVAL 9600)
      ∈ (EVENT_CDC_Device_LineEncodingChanged false 0 ⟨9600, 2, 1, 8⟩ ⟨0, 0, false⟩).2 := by
  obtain ⟨⟨mid, htr, _, hubrr, _⟩, h1, h2, h3, h4, h5⟩ :=
    line_encoding_reconfig false 0 ⟨9600, 2, 1, 8⟩ ⟨0, 0, false⟩
      (Or.inr (Or.inl rfl)) (Or.inr rfl) (Or.inr (Or.inr rfl))
  refine ⟨by rw [h1]; decide, by rw [h3]; decide, ?_⟩
  rw [htr]
  exact List.mem_cons_of_mem _ (List.mem_append_left _ hubrr)

lemma USART1_RX_vect_accept (udr1 : Nat) (s : MainState)
    (hfull : RingBuffer_IsFull s.buf = false) :
    USART1_RX_vect true udr1 s =
      ⟨⟨RingBuffer_Insert s.buf (udr1 % 256), 0,
        if RingBuffer_GetCount s.buf ≠ 0 then ((s.tcnt <<< 2) % 2 ^ 16) % 2 ^ 8
        else s.timeout⟩, true⟩ := by
  simp [USART1_RX_vect, hfull]

lemma count_insert_not_full (rb : RingBuffer_t) (b : Nat)
    (h : RingBuffer_IsFull rb = false) :
    (RingBuffer_Insert rb b).count = rb.count + 1 := by
  unfold RingBuffer_IsFull at h
  unfold RingBuffer_Insert
  rw [if_neg (by simp_all)]

lemma initBuffer_capacity :
    (RingBuffer_InitBuffer USARTtoUSB_Buffer_Data_size).capacity = 1024 := by
  show (List.replicate USARTtoUSB_Buffer_Data_size (0 : Nat)).length = 1024
  rw [List.length_replicate]
  rfl

lemma startup_not_full (t0 : Nat) : RingBuffer_IsFull (startupState t0).buf = false := by
  show ((RingBuffer_InitBuffer USARTtoUSB_Buffer_Data_size).count
      == (RingBuffer_InitBuffer USARTtoUSB_Buffer_Data_size).capacity) = false
  rw [initBuffer_capacity]
  rfl

/-- C10: a byte accepted into an empty buffer keeps the previous deadline and
zeroes the timer; since the deadline is statically zero at startup, the first
byte ever received satisfies the timer-based flush condition on the next
main-loop iteration whatever the timer then reads. -/
theorem first_byte_flush_eligible :
    (∀ (udr1 : Nat) (s : MainState), RingBuffer_GetCount s.buf = 0 →
      RingBuffer_IsFull s.buf = false →
      (USART1_RX_vect true udr1 s).state.timeout = s.timeout ∧
      (USART1_RX_vect true udr1 s).state.tcnt = 0) ∧
    (∀ (t0 t1 udr1 : Nat) (rx : List Int) (inReady : Bool) (send : Nat → Nat → Nat),
      (USART1_RX_vect true udr1 (startupState t0)).state.timeout = 0 ∧
      (mainIteration rx inReady send
          ⟨(USART1_RX_vect true udr1 (startupState t0)).state.buf, t1,
            (USART1_RX_vect true udr1 (startupState t0)).state.timeout⟩).2.inEndpointSelected
        = true) := by
  have hgen : ∀ (udr1 : Nat) (s : MainState), RingBuffer_GetCount s.buf = 0 →
      RingBuffer_IsFull s.buf = false →
      (USART1_RX_vect true udr1 s).state.timeout = s.timeout ∧
      (USART1_RX_vect true udr1 s).state.tcnt = 0 := by
    intro udr1 s hempty hfull
    constructor <;> simp [USART1_RX_vect, hempty, hfull]
  refine ⟨hgen, ?_⟩
  intro t0 t1 udr1 rx inReady send
  have hfull : RingBuffer_IsFull (startupState t0).buf = false := startup_not_full t0
  have hempty : RingBuffer_GetCount (startupState t0).buf = 0 := rfl
  have hacc := USART1_RX_vect_accept udr1 (startupState t0) hfull
  have hempty' : RingBuffer_GetCount (RingBuffer_InitBuffer USARTtoUSB_Buffer_Data_size)
      = 0 := rfl
  have hto : (USART1_RX_vect true udr1 (startupState t0)).state.timeout = 0 := by
    rw [hacc]
    simp [startupState, hempty']
  have hcnt : RingBuffer_GetCount (USART1_RX_vect true udr1 (startupState t0)).state.buf
      = 1 := by
    rw [hacc]
    show (RingBuffer_Insert (startupState t0).buf (udr1 % 256)).count = 1
    rw [count_insert_not_full _ _ hfull]
    rfl
  refine ⟨hto, ?_⟩
  rw [mainIteration_selected]
  simp [flushTriggerCond, hcnt, hto]

/-- Witness for C10: after the first byte into the startup state, the very
next iteration with timer at 999 selects the IN endpoint. -/
theorem first_byte_flush_eligible_witness :
    (USART1_RX_vect true 7 (startupState 3)).state.timeout = 0 ∧
    (mainIteration [] false (fun _ _ => 0)
        ⟨(USART1_RX_vect true 7 (startupState 3)).state.buf, 999,
          (USART1_RX_vect true 7 (startupState 3)).state.timeout⟩).2.inEndpointSelected
      = true :=
  first_byte_flush_eligible.2 3 999 7 [] false (fun _ _ => 0)

end USBtoSerial
